import Mathlib

/-!
Verification development for the device-to-cluster allocation optimizer
(modules `device_alloc.model` and `device_alloc.optimizer`).

Python floats are modelled as exact rationals.  The single place where the
float infinity matters (the initial value of `interc_energy` in
`create_cluster_pool`) is modelled as the top element of `WithTop ℚ`.
Fallible code (the `ValueError` raised by `Device.adjust`, the `IndexError`
raised by the breakpoint policy on curves with fewer than two points) is
modelled with `Except`/`Option` results.  The external MIP solver is
modelled as an oracle producing a terminal status together with a value for
every variable; the solver contract says that under an optimal status the
returned values satisfy every constraint of the model, which is expressed
by the predicate `Satisfies` below.
-/

/-- Python's `math.isclose`: `abs (a - b) ≤ max (rel_tol * max |a| |b|) abs_tol`. -/
def isclose (a b rel_tol abs_tol : ℚ) : Bool :=
  decide (|a - b| ≤ max (rel_tol * max |a| |b|) abs_tol)

/- ----------------------------------------------------------------- -/
/- Entity model (device_alloc/model.py)                              -/
/- ----------------------------------------------------------------- -/

/-- The `Device` dataclass. -/
structure Device where
  id : Int
  load : ℚ
  capacity_load : ℚ
  cluster_ids : List Int
deriving DecidableEq, Repr

/-- Loop body of `Device.adjust`: starting from the current `load`, take
`m` further steps, each adding `diff` and clamping into `[0, 1]`. -/
def Device.adjustGo (d : Device) (diff : ℚ) : Nat → ℚ → List Device
  | 0, _ => []
  | m + 1, load =>
    let load' := max (min (load + diff) 1) 0
    { d with capacity_load := load' } :: d.adjustGo diff m load'

/-- The `Device.adjust` method.  Raising `ValueError` for `n_iter < 2` is
modelled as an `Except.error`. -/
def Device.adjust (d : Device) (n_iter : Int) : Except String (List Device) :=
  if n_iter < 2 then
    Except.error "n_iter must be greater than or equal to 2"
  else
    let m := (n_iter - 1).toNat
    Except.ok (d :: d.adjustGo ((1 - d.capacity_load) / (m : ℚ)) m d.capacity_load)

/- ----------------------------------------------------------------- -/
/- Cluster energy-curve builder (create_cluster_pool)                -/
/- ----------------------------------------------------------------- -/

/-- Raw per-host data read from the infrastructure snapshot: the optional
VM id list (`HOST.VMS`), the total CPU percentage (`HOST_SHARE.TOTAL_CPU`),
the parsed `CPU_ENERGY` curve when the attribute is present (a successful
parse always yields at least one breakpoint, hence the head/tail pair),
and the per-NUMA-node core counts. -/
structure RawHost where
  vms : Option (List Int)
  total_cpu : ℚ
  cpu_energy : Option ((ℚ × ℚ) × List (ℚ × ℚ))
  numa_cores : List Nat
deriving DecidableEq, Repr

/-- Raw per-cluster data: the id, the `CARBON_INTENSITY` template attribute
(0 when absent) and the cluster's hosts. -/
structure RawCluster where
  id : Int
  carbon_intensity : ℚ
  hosts : List RawHost
deriving DecidableEq, Repr

/-- The `_parse_contention` helper: total number of cores across the
host's NUMA nodes. -/
def _parse_contention (numa_cores : List Nat) : ℚ :=
  (numa_cores.sum : ℚ)

/-- Host power curve used by `create_cluster_pool`: the parsed `CPU_ENERGY`
attribute when present, otherwise the synthesized flat curve
`[(0, 0), (cpu_total, 0)]` built from the running `cpu_total`. -/
def host_energy_curve (h : RawHost) (cpu_total : ℚ) : List (ℚ × ℚ) :=
  match h.cpu_energy with
  | some pps => pps.1 :: pps.2
  | none => [(0, 0), (cpu_total, 0)]

/-- Energy contribution of one host to `cont_energy`: the energy of the
first curve point whose cpu coordinate is `isclose` to `cont_cpu` with
`abs_tol = 0.5` (and Python's default `rel_tol = 1e-9`); 0 when no point
matches. -/
def cont_match_energy (curve : List (ℚ × ℚ)) (cont_cpu : ℚ) : ℚ :=
  match curve.find? (fun pe => isclose pe.1 cont_cpu (1 / 1000000000) (1 / 2)) with
  | some pe => pe.2
  | none => 0

/-- The four accumulators of `create_cluster_pool` that the source
initialises before the cluster loop: `interc_energy` (float `inf`
modelled as the top element), `cont`, `cont_energy` and `cap`. -/
structure PoolAcc where
  interc_energy : WithTop ℚ
  cont : ℚ
  cont_energy : ℚ
  cap : ℚ
deriving DecidableEq, Repr

/-- State carried through the host loop: the shared accumulators plus the
two per-cluster accumulators `n_vms` and `cpu_total`. -/
structure HostAcc where
  acc : PoolAcc
  n_vms : ℚ
  cpu_total : ℚ
deriving DecidableEq, Repr

/-- Body of the host loop of `create_cluster_pool`. -/
def process_host (s : HostAcc) (h : RawHost) : HostAcc :=
  let n_vms := s.n_vms + (match h.vms with | some ids => (ids.length : ℚ) | none => 0)
  let cpu_total := s.cpu_total + h.total_cpu / 100
  let curve := host_energy_curve h cpu_total
  let interc_energy := min s.acc.interc_energy ((curve.headI.2 : ℚ) : WithTop ℚ)
  let cont_cpu := _parse_contention h.numa_cores
  { acc :=
      { interc_energy := interc_energy
        cont := s.acc.cont + cont_cpu
        cont_energy := s.acc.cont_energy + cont_match_energy curve cont_cpu
        cap := s.acc.cap + (⌊cpu_total⌋ : ℚ) }
    n_vms := n_vms
    cpu_total := cpu_total }

/-- Result entries of `create_cluster_pool`.  The source constructs
`Cluster` values here; the energy values are widened to `WithTop ℚ`
because the float infinity that `interc_energy` is initialised to can
survive into the first breakpoint when no host has been processed yet. -/
structure PoolCluster where
  id : Int
  capacity : ℚ
  max_capacity : ℚ
  energy : List (ℚ × WithTop ℚ)
  carbon_intensity : ℚ
deriving DecidableEq, Repr

/-- Body of the cluster loop of `create_cluster_pool`: fold the host loop
over the cluster's hosts starting from the incoming accumulators (with the
per-cluster `n_vms` and `cpu_total` reset to 0), then emit the three-point
curve from the accumulator values. -/
def process_cluster (acc : PoolAcc) (rc : RawCluster) : PoolAcc × PoolCluster :=
  let s := rc.hosts.foldl process_host { acc := acc, n_vms := 0, cpu_total := 0 }
  let bpts : List (ℚ × WithTop ℚ) :=
    [(0, s.acc.interc_energy),
     (s.acc.cont, (s.acc.cont_energy : WithTop ℚ)),
     (s.acc.cap, (s.acc.cont_energy : WithTop ℚ))]
  (s.acc,
   { id := rc.id
     capacity := s.n_vms
     max_capacity := s.cpu_total
     energy := bpts
     carbon_intensity := rc.carbon_intensity })

/-- The `create_cluster_pool` builder.  As in the source, the accumulators
`interc_energy`, `cont`, `cont_energy` and `cap` are initialised once,
before the cluster loop, and are threaded through all clusters. -/
def create_cluster_pool (clusters : List RawCluster) : List PoolCluster :=
  (clusters.foldl
    (fun (p : PoolAcc × List PoolCluster) rc =>
      let q := process_cluster p.1 rc
      (q.1, p.2 ++ [q.2]))
    ({ interc_energy := ⊤, cont := 0, cont_energy := 0, cap := 0 }, [])).2

/- ----------------------------------------------------------------- -/
/- Optimizer data model and breakpoint policy                        -/
/- ----------------------------------------------------------------- -/

/-- The `Cluster` dataclass as consumed by the optimizer. -/
structure Cluster where
  id : Int
  capacity : ℚ
  max_capacity : ℚ
  energy : List (ℚ × ℚ)
  carbon_intensity : ℚ
deriving DecidableEq, Repr

/-- Breakpoint policy applied to one cluster's curve by
`DeviceOptimizer.__init__`, selected by `contention_corr`.  Reading
`energy[-2]` (or `energy[-1]`) of a curve with fewer than two (one)
points raises `IndexError` in the source, modelled as `none`. -/
def contention_policy (contention_corr : Option ℚ) (energy : List (ℚ × ℚ)) :
    Option (List (ℚ × ℚ)) :=
  match contention_corr with
  | none =>
    match energy.getLast?, energy.dropLast.getLast? with
    | some lastB, some sndLast =>
      some (if isclose lastB.2 sndLast.2 (1 / 100) 0 then energy.dropLast else energy)
    | _, _ => none
  | some corr =>
    if corr = 1 then some energy
    else
      match energy.getLast?, energy.dropLast.getLast? with
      | some lastB, some sndLast =>
        some (if isclose lastB.2 sndLast.2 (1 / 100) 0
              then energy.dropLast ++ [(lastB.1, lastB.2 * corr)]
              else energy)
      | _, _ => none

/-- Construction of `self._energy_bpts` by `DeviceOptimizer.__init__`:
the policy applied to every cluster, in cluster order; `none` when some
cluster's curve makes the policy raise. -/
def build_e_bpts (contention_corr : Option ℚ) : List Cluster →
    Option (List (Int × List (ℚ × ℚ)))
  | [] => some []
  | cl :: rest =>
    match contention_policy contention_corr cl.energy, build_e_bpts contention_corr rest with
    | some e, some r => some ((cl.id, e) :: r)
    | _, _ => none

/- ----------------------------------------------------------------- -/
/- Semantic model of the MIP built by DeviceOptimizer                -/
/- ----------------------------------------------------------------- -/

/-- Value returned by the external solver for every variable of the model:
the binary assignment variables, the integer VM-count variables, and the
per-segment indicator and weight variables of the piecewise energy
encoding. -/
structure Assignment where
  x : Int → Int → ℚ
  n_vms : Int → ℚ
  seg_ind : Int → Nat → ℚ
  seg_weight : Int → Nat → ℚ

/-- Value of a binary (`cat='Binary'`) variable. -/
def IsBinary (q : ℚ) : Prop := q = 0 ∨ q = 1

/-- Key set of the dictionary of binary assignment variables built by
`_add_vars`: one key per device and per cluster id in its `cluster_ids`.
The source keys devices by id in a dictionary; the theorems below assume
device ids are unique (the spec requires collections unique by id), under
which the two agree. -/
def x_keys (devices : List Device) : List (Int × Int) :=
  devices.flatMap (fun d => d.cluster_ids.map (fun c => (d.id, c)))

/-- Value of the `cluster_loads[c]` expression of `_add_constrs`: the
capacity-load-weighted sum of the assignment variables of cluster `c`. -/
def cluster_load (devices : List Device) (σ : Assignment) (c : Int) : ℚ :=
  (devices.map (fun d => if c ∈ d.cluster_ids then σ.x d.id c * d.capacity_load else 0)).sum

/-- Value of the `cluster_loads[c]` expression of `_add_energy`: the
load-weighted sum of the assignment variables of cluster `c` (this one
uses `load`, not `capacity_load`). -/
def cluster_load_energy (devices : List Device) (σ : Assignment) (c : Int) : ℚ :=
  (devices.map (fun d => if c ∈ d.cluster_ids then σ.x d.id c * d.load else 0)).sum

/-- Cluster `c` receives per-cluster constraints in `_add_constrs` exactly
when some assignment variable mentions it. -/
def has_feasible (devices : List Device) (c : Int) : Prop :=
  ∃ d ∈ devices, c ∈ d.cluster_ids

instance (devices : List Device) (c : Int) : Decidable (has_feasible devices c) := by
  unfold has_feasible; infer_instance

/-- Python's `sorted` on breakpoint pairs: stable sort by lexicographic
order. -/
def sort_bpts (bps : List (ℚ × ℚ)) : List (ℚ × ℚ) :=
  bps.mergeSort (fun a b => decide (a.1 < b.1) || (decide (a.1 = b.1) && decide (a.2 ≤ b.2)))

/-- Indexed consecutive pairs of a breakpoint list: the segments of the
piecewise-linear encoding, as enumerated by `_add_energy`. -/
def segs (bps : List (ℚ × ℚ)) : List (Nat × ((ℚ × ℚ) × (ℚ × ℚ))) :=
  (bps.zip bps.tail).enum

/-- Contribution of one segment to the cluster cpu expression. -/
def seg_term_cpu (σ : Assignment) (c : Int) (s : Nat × ((ℚ × ℚ) × (ℚ × ℚ))) : ℚ :=
  σ.seg_ind c s.1 * s.2.1.1 + σ.seg_weight c s.1 * (s.2.2.1 - s.2.1.1)

/-- Contribution of one segment to the cluster energy expression. -/
def seg_term_energy (σ : Assignment) (c : Int) (s : Nat × ((ℚ × ℚ) × (ℚ × ℚ))) : ℚ :=
  σ.seg_ind c s.1 * s.2.1.2 + σ.seg_weight c s.1 * (s.2.2.2 - s.2.1.2)

/-- Value of the cluster cpu expression of `_add_energy` over the sorted
segments of the (policy-adjusted) breakpoint list. -/
def cpu_value (σ : Assignment) (c : Int) (bps : List (ℚ × ℚ)) : ℚ :=
  ((segs (sort_bpts bps)).map (seg_term_cpu σ c)).sum

/-- Value of the cluster energy expression of `_add_energy`; clusters with
fewer than two breakpoints are skipped and keep the empty (zero)
expression. -/
def energy_value (σ : Assignment) (c : Int) (bps : List (ℚ × ℚ)) : ℚ :=
  if bps.length ≤ 1 then 0
  else ((segs (sort_bpts bps)).map (seg_term_energy σ c)).sum

/-- Solver contract for an optimal terminal status: the returned variable
values satisfy every constraint emitted by `_add_vars`, `_add_constrs`
and `_add_energy` (exactly, tolerances aside), and every variable lies in
its declared domain. -/
structure Satisfies (devices : List Device) (clusters : List Cluster)
    (e_bpts : List (Int × List (ℚ × ℚ))) (cap_lb cap_ub : ℚ) (σ : Assignment) : Prop where
  x_binary : ∀ d ∈ devices, ∀ c ∈ d.cluster_ids, IsBinary (σ.x d.id c)
  one_alloc : ∀ d ∈ devices, d.cluster_ids ≠ [] → (d.cluster_ids.map (σ.x d.id)).sum = 1
  n_vms_int : ∀ cl ∈ clusters, (σ.n_vms cl.id).den = 1
  n_vms_lb : ∀ cl ∈ clusters, 0 ≤ σ.n_vms cl.id
  n_vms_ub : ∀ cl ∈ clusters, σ.n_vms cl.id ≤ min cl.max_capacity cap_ub
  capacity : ∀ cl ∈ clusters, has_feasible devices cl.id →
    cluster_load devices σ cl.id ≤ cl.max_capacity
  vm_link_lb : ∀ cl ∈ clusters, has_feasible devices cl.id →
    cluster_load devices σ cl.id ≤ σ.n_vms cl.id
  vm_link_ub : ∀ cl ∈ clusters, has_feasible devices cl.id →
    cluster_load devices σ cl.id + 9999 / 10000 ≥ σ.n_vms cl.id
  cap_band_lb : cap_lb ≤ (clusters.map (fun cl => σ.n_vms cl.id)).sum
  cap_band_ub : (clusters.map (fun cl => σ.n_vms cl.id)).sum ≤ cap_ub
  seg_binary : ∀ p ∈ e_bpts, 2 ≤ p.2.length →
    ∀ s ∈ segs (sort_bpts p.2), IsBinary (σ.seg_ind p.1 s.1)
  seg_weight_nonneg : ∀ p ∈ e_bpts, 2 ≤ p.2.length →
    ∀ s ∈ segs (sort_bpts p.2), 0 ≤ σ.seg_weight p.1 s.1
  seg_weight_le : ∀ p ∈ e_bpts, 2 ≤ p.2.length →
    ∀ s ∈ segs (sort_bpts p.2), σ.seg_weight p.1 s.1 ≤ σ.seg_ind p.1 s.1
  seg_one : ∀ p ∈ e_bpts, 2 ≤ p.2.length →
    ((segs (sort_bpts p.2)).map (fun s => σ.seg_ind p.1 s.1)).sum = 1
  cpu_balance : ∀ p ∈ e_bpts, 2 ≤ p.2.length →
    cpu_value σ p.1 p.2 = cluster_load_energy devices σ p.1

/- ----------------------------------------------------------------- -/
/- Result extraction and single solve                                -/
/- ----------------------------------------------------------------- -/

/-- Python's `round`: round half to even. -/
def pyround (q : ℚ) : ℤ :=
  if q - ⌊q⌋ < 1 / 2 then ⌊q⌋
  else if 1 / 2 < q - ⌊q⌋ then ⌊q⌋ + 1
  else if 2 ∣ ⌊q⌋ then ⌊q⌋ else ⌊q⌋ + 1

/-- Python dictionary assignment on an insertion-ordered association
list: overwrite in place when the key is present, append otherwise. -/
def dinsert {α : Type} : List (Int × α) → Int → α → List (Int × α)
  | [], k, v => [(k, v)]
  | p :: m, k, v => if p.1 = k then (k, v) :: m else p :: dinsert m k v

/-- Python dictionary lookup. -/
def dget {α : Type} (m : List (Int × α)) (k : Int) : Option α :=
  (m.find? (fun p => p.1 == k)).map (fun p => p.2)

/-- One step of the allocation-extraction loop of
`DeviceOptimizer.optimize`: record `allocs[d] = c` when the variable value
rounds to a non-zero integer. -/
def alloc_step (σ : Assignment) (m : List (Int × Int)) (dc : Int × Int) : List (Int × Int) :=
  if pyround (σ.x dc.1 dc.2) ≠ 0 then dinsert m dc.1 dc.2 else m

/-- The `allocs` dictionary extracted by `DeviceOptimizer.optimize`. -/
def extract_allocs (devices : List Device) (σ : Assignment) : List (Int × Int) :=
  (x_keys devices).foldl (alloc_step σ) []

/-- One step of the VM-count extraction loop. -/
def n_vms_step (σ : Assignment) (m : List (Int × ℤ)) (cl : Cluster) : List (Int × ℤ) :=
  dinsert m cl.id (pyround (σ.n_vms cl.id))

/-- The `n_vms` dictionary extracted by `DeviceOptimizer.optimize`. -/
def extract_n_vms (clusters : List Cluster) (σ : Assignment) : List (Int × ℤ) :=
  clusters.foldl (n_vms_step σ) []

/-- Capacity-load sum of the devices that the extracted allocations
dictionary assigns to cluster `c`. -/
def assigned_load (devices : List Device) (allocs : List (Int × Int)) (c : Int) : ℚ :=
  ((devices.filter (fun d => dget allocs d.id == some c)).map Device.capacity_load).sum

/-- Value of the objective `Σ carbon_intensity[c] * energy[c]` at the
returned assignment. -/
def objective_value (clusters : List Cluster) (e_bpts : List (Int × List (ℚ × ℚ)))
    (σ : Assignment) : ℚ :=
  (e_bpts.map (fun p =>
    (match clusters.find? (fun cl => cl.id == p.1) with
     | some cl => cl.carbon_intensity
     | none => 0) * energy_value σ p.1 p.2)).sum

/-- Terminal status reported by the external solver. -/
inductive LpStatus
  | optimal
  | infeasible
  | unbounded
  | notSolved
deriving DecidableEq, Repr

/-- Populated result triple `(allocations, vm_counts, objective_value)`. -/
abbrev Triple := List (Int × Int) × List (Int × ℤ) × ℚ

/-- Outcome of one `DeviceOptimizer` construction plus solve: `err` when
the constructor raises (breakpoint policy on a short curve), `noSol` for
the empty-tuple sentinel, `sol` for a populated triple. -/
inductive SolveOut
  | err : SolveOut
  | noSol : SolveOut
  | sol : Triple → SolveOut
deriving DecidableEq, Repr

/-- Default for `max_capacity`: the sum of the clusters' `max_capacity`
when the caller passes `None`. -/
def resolve_cap_ub (clusters : List Cluster) : Option ℚ → ℚ
  | none => (clusters.map (fun cl => cl.max_capacity)).sum
  | some q => q

namespace DeviceOptimizer

/-- Construction (`__init__`, which applies the breakpoint policy) plus
`optimize`: build the model, hand it to the solver — modelled by the pair
of a terminal status and a variable assignment — and either extract the
populated triple (status optimal) or return the sentinel. -/
def optimize (devices : List Device) (clusters : List Cluster)
    (min_capacity : ℚ) (max_capacity : Option ℚ) (contention_corr : Option ℚ)
    (status : LpStatus) (σ : Assignment) : SolveOut :=
  match build_e_bpts contention_corr clusters with
  | none => SolveOut.err
  | some e_bpts =>
    if status = LpStatus.optimal then
      SolveOut.sol
        (extract_allocs devices σ, extract_n_vms clusters σ, objective_value clusters e_bpts σ)
    else SolveOut.noSol

end DeviceOptimizer

/- ----------------------------------------------------------------- -/
/- Two-phase solve and sensitivity sweep                             -/
/- ----------------------------------------------------------------- -/

/-- The `optimize_contention` two-phase solve.  The external solver is an
oracle mapping the `contention_corr` of the attempt to a terminal status
and an assignment; the strict attempt runs with `contention_corr = None`,
and only a falsy (sentinel) result triggers the penalized attempt. -/
def optimize_contention (devices : List Device) (clusters : List Cluster)
    (min_capacity : ℚ) (max_capacity : Option ℚ) (contention_corr : ℚ)
    (oracle : Option ℚ → LpStatus × Assignment) : SolveOut :=
  let a1 := oracle none
  match DeviceOptimizer.optimize devices clusters min_capacity max_capacity none a1.1 a1.2 with
  | SolveOut.err => SolveOut.err
  | SolveOut.sol r => SolveOut.sol r
  | SolveOut.noSol =>
    let a2 := oracle (some contention_corr)
    DeviceOptimizer.optimize devices clusters min_capacity max_capacity
      (some contention_corr) a2.1 a2.2

/-- The list comprehension `[device.adjust(n_iter) for device in devices]`
of the sweep driver; the first `ValueError` propagates. -/
def adjust_rows (n_iter : Int) : List Device → Except String (List (List Device))
  | [] => Except.ok []
  | d :: rest =>
    match d.adjust n_iter, adjust_rows n_iter rest with
    | Except.ok row, Except.ok rows => Except.ok (row :: rows)
    | Except.error e, _ => Except.error e
    | Except.ok _, Except.error e => Except.error e

/-- Python's `zip(*rows)` transposition: as many columns as the shortest
row, no columns at all when there are no rows. -/
def pyzip {α : Type} (rows : List (List α)) : List (List α) :=
  (List.range (((rows.map (fun r => r.length)).min?).getD 0)).map
    (fun k => rows.filterMap (fun r => r.get? k))

/-- Scenario loop of the sweep driver: run the two-phase solve on each
scenario (the oracle is indexed by scenario number), keep the populated
results in order, skip sentinel results, and let an exception abort the
whole sweep. -/
def run_scenarios (clusters : List Cluster) (oracle : Nat → Option ℚ → LpStatus × Assignment) :
    Nat → List (List Device) → Option (List Triple)
  | _, [] => some []
  | k, ds :: rest =>
    match optimize_contention ds clusters 0 none 2 (oracle k) with
    | SolveOut.err => none
    | SolveOut.noSol => run_scenarios clusters oracle (k + 1) rest
    | SolveOut.sol t => (run_scenarios clusters oracle (k + 1) rest).map (fun l => t :: l)

/-- Results of the successful scenarios, in scenario-index order. -/
def scenario_results (clusters : List Cluster)
    (oracle : Nat → Option ℚ → LpStatus × Assignment)
    (scens : List (List Device)) : List Triple :=
  scens.enum.filterMap (fun ks =>
    match optimize_contention ks.2 clusters 0 none 2 (oracle ks.1) with
    | SolveOut.sol t => some t
    | _ => none)

/-- The module-level sweep driver `optimize`: adjust every device, zip the
variants into lockstep scenarios, and run the two-phase solve per
scenario with the default parameters (`min_capacity = 0`,
`max_capacity = None`, `contention_corr = 2.0`). -/
def optimize (clusters : List Cluster) (devices : List Device) (n_iter : Int)
    (oracle : Nat → Option ℚ → LpStatus × Assignment) : Option (List Triple) :=
  match adjust_rows n_iter devices with
  | Except.error _ => none
  | Except.ok rows => run_scenarios clusters oracle 0 (pyzip rows)

/- ----------------------------------------------------------------- -/
/- Lemmas about Device.adjust                                        -/
/- ----------------------------------------------------------------- -/

lemma adjustGo_length (d : Device) (diff : ℚ) :
    ∀ (m : Nat) (load : ℚ), (d.adjustGo diff m load).length = m := by
  intro m
  induction m with
  | zero => intro load; rfl
  | succ m ih => intro load; simp [Device.adjustGo, ih]

lemma adjustGo_mem (d : Device) (diff : ℚ) :
    ∀ (m : Nat) (load : ℚ), ∀ e ∈ d.adjustGo diff m load,
      e.id = d.id ∧ e.load = d.load ∧ e.cluster_ids = d.cluster_ids := by
  intro m
  induction m with
  | zero => intro load e he; simp [Device.adjustGo] at he
  | succ m ih =>
    intro load e he
    simp only [Device.adjustGo, List.mem_cons] at he
    rcases he with h | h
    · subst h; exact ⟨rfl, rfl, rfl⟩
    · exact ih _ e h

lemma adjustGo_get? (d : Device) (diff : ℚ) (hdiff : 0 ≤ diff) :
    ∀ (m : Nat) (load : ℚ), 0 ≤ load → load + m * diff ≤ 1 →
    ∀ i : Nat, i < m →
      (d.adjustGo diff m load).get? i
        = some { d with capacity_load := load + (i + 1) * diff } := by
  intro m
  induction m with
  | zero => intro load _ _ i hi; omega
  | succ m ih =>
    intro load h0 h1 i hi
    have hmd : 0 ≤ (m : ℚ) * diff := mul_nonneg (by positivity) hdiff
    have h1' : load + diff + (m : ℚ) * diff ≤ 1 := by push_cast at h1; linarith
    have hld : load + diff ≤ 1 := by linarith
    have hclamp : max (min (load + diff) 1) 0 = load + diff := by
      rw [min_eq_left hld, max_eq_left (by linarith)]
    show (({ d with capacity_load := max (min (load + diff) 1) 0 })
        :: d.adjustGo diff m (max (min (load + diff) 1) 0)).get? i = _
    rw [hclamp]
    cases i with
    | zero => simp
    | succ i =>
      rw [List.get?_cons_succ]
      rw [ih (load + diff) (by linarith) (by linarith) i (by omega)]
      have h2 : load + diff + ((i : ℚ) + 1) * diff = load + (((i + 1 : Nat) : ℚ) + 1) * diff := by
        push_cast; ring
      exact congrArg (fun q => some { d with capacity_load := q }) h2

/-- C2: for every device with `0 ≤ capacity_load ≤ 1` and every integer
`n ≥ 2`, `Device.adjust n` returns exactly `n` devices whose
`capacity_load` values start at the original value, end at 1, follow the
arithmetic progression of step `(1 - p) / (n - 1)` (hence are evenly
spaced and monotonically non-decreasing), with `id`, `load` and
`cluster_ids` preserved on every element; for every `n < 2` it fails with
the InvalidArgument (`ValueError`) error. -/
theorem C2_adjust_spec (d : Device) (n : Int)
    (hp0 : 0 ≤ d.capacity_load) (hp1 : d.capacity_load ≤ 1) :
    (2 ≤ n → ∃ l, d.adjust n = Except.ok l
      ∧ (l.length : Int) = n
      ∧ (∀ e ∈ l, e.id = d.id ∧ e.load = d.load ∧ e.cluster_ids = d.cluster_ids)
      ∧ (∀ i : Nat, i < l.length →
          (l.get? i).map Device.capacity_load
            = some (d.capacity_load + (i : ℚ) * ((1 - d.capacity_load) / ((n : ℚ) - 1))))
      ∧ (l.get? 0).map Device.capacity_load = some d.capacity_load
      ∧ (l.get? (l.length - 1)).map Device.capacity_load = some 1
      ∧ (∀ i : Nat, i + 1 < l.length → ∀ a b : Device,
          l.get? i = some a → l.get? (i + 1) = some b →
          b.capacity_load - a.capacity_load = (1 - d.capacity_load) / ((n : ℚ) - 1))
      ∧ (∀ i j : Nat, i ≤ j → j < l.length → ∀ a b : Device,
          l.get? i = some a → l.get? j = some b →
          a.capacity_load ≤ b.capacity_load))
    ∧ (n < 2 → ∃ msg, d.adjust n = Except.error msg) := by
  constructor
  · intro h2
    have hn2 : ¬ n < 2 := by omega
    set p := d.capacity_load with hpdef
    set m : Nat := (n - 1).toNat with hmdef
    have hmz : ((m : Nat) : Int) = n - 1 := Int.toNat_of_nonneg (by omega)
    have hm1 : 1 ≤ m := by omega
    have hmc : (m : ℚ) = (n : ℚ) - 1 := by exact_mod_cast hmz
    have hmQ0 : (0 : ℚ) < (m : ℚ) := by exact_mod_cast hm1
    set diff : ℚ := (1 - p) / (m : ℚ) with hdiffdef
    have hdiff0 : 0 ≤ diff := div_nonneg (by linarith) (le_of_lt hmQ0)
    have hdiff_eq : diff = (1 - p) / ((n : ℚ) - 1) := by rw [hdiffdef, hmc]
    have hsum : p + (m : ℚ) * diff = 1 := by
      have hc : (m : ℚ) * ((1 - p) / (m : ℚ)) = 1 - p := by
        field_simp
      rw [hdiffdef, hc]; ring
    have hadj : d.adjust n = Except.ok (d :: d.adjustGo diff m p) := by
      show (if n < 2 then _ else _) = _
      rw [if_neg hn2]
    have hlen : (d :: d.adjustGo diff m p).length = m + 1 := by
      simp [adjustGo_length]
    have hget : ∀ i : Nat, i < m + 1 →
        ((d :: d.adjustGo diff m p).get? i).map Device.capacity_load
          = some (p + (i : ℚ) * diff) := by
      intro i hi
      cases i with
      | zero => simp
      | succ i =>
        rw [List.get?_cons_succ,
          adjustGo_get? d diff hdiff0 m p hp0 (le_of_eq hsum) i (by omega)]
        exact congrArg some (by push_cast; ring)
    refine ⟨d :: d.adjustGo diff m p, hadj, ?_, ?_, ?_, ?_, ?_, ?_, ?_⟩
    · rw [hlen]; omega
    · intro e he
      rcases List.mem_cons.mp he with h | h
      · subst h; exact ⟨rfl, rfl, rfl⟩
      · exact adjustGo_mem d diff m p e h
    · intro i hi
      rw [← hdiff_eq]
      exact hget i (by rw [hlen] at hi; exact hi)
    · simp
    · rw [hlen]
      simpa [hsum] using hget m (by omega)
    · intro i hi a b ha hb
      rw [hlen] at hi
      have hva := hget i (by omega)
      have hvb := hget (i + 1) (by omega)
      rw [ha] at hva
      rw [hb] at hvb
      have hva' : a.capacity_load = p + (i : ℚ) * diff := Option.some.inj hva
      have hvb' : b.capacity_load = p + ((i + 1 : Nat) : ℚ) * diff := Option.some.inj hvb
      rw [hva', hvb', ← hdiff_eq]
      push_cast
      ring
    · intro i j hij hj a b ha hb
      rw [hlen] at hj
      have hva := hget i (by omega)
      have hvb := hget j (by omega)
      rw [ha] at hva
      rw [hb] at hvb
      have hva' : a.capacity_load = p + (i : ℚ) * diff := Option.some.inj hva
      have hvb' : b.capacity_load = p + (j : ℚ) * diff := Option.some.inj hvb
      rw [hva', hvb']
      have : (i : ℚ) ≤ (j : ℚ) := by exact_mod_cast hij
      nlinarith
  · intro h
    refine ⟨"n_iter must be greater than or equal to 2", ?_⟩
    show (if n < 2 then _ else _) = _
    rw [if_pos h]

/-- Witness for C2 at the device `(id 1, load 2, capacity_load 1/2,
clusters [3])` and `n = 3`. -/
theorem C2_adjust_spec_witness :
    ∃ l, Device.adjust { id := 1, load := 2, capacity_load := 1/2, cluster_ids := [3] } 3
        = Except.ok l
      ∧ (l.length : Int) = 3
      ∧ (∀ e ∈ l, e.id = (1 : Int) ∧ e.load = 2 ∧ e.cluster_ids = [3])
      ∧ (∀ i : Nat, i < l.length →
          (l.get? i).map Device.capacity_load
            = some (1/2 + (i : ℚ) * ((1 - 1/2) / (((3 : Int) : ℚ) - 1))))
      ∧ (l.get? 0).map Device.capacity_load = some (1/2)
      ∧ (l.get? (l.length - 1)).map Device.capacity_load = some 1
      ∧ (∀ i : Nat, i + 1 < l.length → ∀ a b : Device,
          l.get? i = some a → l.get? (i + 1) = some b →
          b.capacity_load - a.capacity_load = (1 - 1/2) / (((3 : Int) : ℚ) - 1))
      ∧ (∀ i j : Nat, i ≤ j → j < l.length → ∀ a b : Device,
          l.get? i = some a → l.get? j = some b →
          a.capacity_load ≤ b.capacity_load) :=
  (C2_adjust_spec { id := 1, load := 2, capacity_load := 1/2, cluster_ids := [3] } 3
    (by norm_num) (by norm_num)).1 (by norm_num)

/- ----------------------------------------------------------------- -/
/- Lemmas about the breakpoint policy                                -/
/- ----------------------------------------------------------------- -/

lemma isclose_rel_iff (a b : ℚ) :
    (isclose a b (1 / 100) 0 = true) ↔ |a - b| ≤ 1 / 100 * max |a| |b| := by
  unfold isclose
  rw [decide_eq_true_eq, max_eq_left (by positivity)]

lemma contention_policy_short_none (energy : List (ℚ × ℚ)) (hshort : energy.length < 2) :
    contention_policy none energy = none := by
  match energy, hshort with
  | [], _ => rfl
  | [a], _ => rfl

lemma contention_policy_short_some (energy : List (ℚ × ℚ)) (hshort : energy.length < 2)
    (k : ℚ) (hk : k ≠ 1) :
    contention_policy (some k) energy = none := by
  match energy, hshort with
  | [], _ => simp [contention_policy, hk]
  | [a], _ => simp [contention_policy, hk]

lemma contention_policy_one (energy : List (ℚ × ℚ)) :
    contention_policy (some 1) energy = some energy := by
  simp [contention_policy]

lemma build_e_bpts_none_of_mem (corr : Option ℚ) (cl : Cluster) :
    ∀ clusters : List Cluster, cl ∈ clusters →
      contention_policy corr cl.energy = none → build_e_bpts corr clusters = none := by
  intro clusters
  induction clusters with
  | nil => intro h; simp at h
  | cons c rest ih =>
    intro hmem hnone
    rcases List.mem_cons.mp hmem with h | h
    · subst h
      simp [build_e_bpts, hnone]
    · cases hp : contention_policy corr c.energy with
      | none => simp [build_e_bpts, hp]
      | some e => simp [build_e_bpts, hp, ih h hnone]

lemma build_e_bpts_one (clusters : List Cluster) :
    build_e_bpts (some 1) clusters = some (clusters.map (fun c => (c.id, c.energy))) := by
  induction clusters with
  | nil => rfl
  | cons c rest ih => simp [build_e_bpts, contention_policy_one, ih]

/-- C5: on a curve with at least two breakpoints (witnessed by its last
and second-to-last points), the policy with `contention_corr = None`
drops the last breakpoint exactly when the last two energy values are
within 1% relative tolerance, the policy with `contention_corr = 1`
returns the curve unchanged, and the policy with any other scalar `k`
multiplies the last breakpoint's energy by `k` (keeping its load) exactly
when the last two energy values are within 1% relative tolerance. -/
theorem C5_breakpoint_policy (energy : List (ℚ × ℚ)) (k : ℚ) (hk : 0 < k) (hk1 : k ≠ 1)
    (lastB sndLast : ℚ × ℚ)
    (hlast : energy.getLast? = some lastB)
    (hsnd : energy.dropLast.getLast? = some sndLast) :
    (contention_policy none energy
      = some (if |lastB.2 - sndLast.2| ≤ 1 / 100 * max |lastB.2| |sndLast.2|
              then energy.dropLast else energy))
    ∧ contention_policy (some 1) energy = some energy
    ∧ (contention_policy (some k) energy
      = some (if |lastB.2 - sndLast.2| ≤ 1 / 100 * max |lastB.2| |sndLast.2|
              then energy.dropLast ++ [(lastB.1, lastB.2 * k)] else energy)) := by
  have hpos : (0 : ℚ) < k := hk
  refine ⟨?_, contention_policy_one energy, ?_⟩
  · simp only [contention_policy, hlast, hsnd]
    exact congrArg some (if_congr (isclose_rel_iff lastB.2 sndLast.2) rfl rfl)
  · simp only [contention_policy, if_neg hk1, hlast, hsnd]
    exact congrArg some (if_congr (isclose_rel_iff lastB.2 sndLast.2) rfl rfl)

/-- Witness for C5 at the curve `[(0, 1), (2, 50)]` (no plateau: the last
two energies differ by far more than 1%) and `k = 3`. -/
theorem C5_breakpoint_policy_witness :
    contention_policy none [((0 : ℚ), (1 : ℚ)), (2, 50)] = some [((0 : ℚ), (1 : ℚ)), (2, 50)]
    ∧ contention_policy (some 1) [((0 : ℚ), (1 : ℚ)), (2, 50)]
        = some [((0 : ℚ), (1 : ℚ)), (2, 50)]
    ∧ contention_policy (some 3) [((0 : ℚ), (1 : ℚ)), (2, 50)]
        = some [((0 : ℚ), (1 : ℚ)), (2, 50)] := by
  have h := C5_breakpoint_policy [((0 : ℚ), (1 : ℚ)), (2, 50)] 3 (by norm_num) (by norm_num)
    ((2 : ℚ), (50 : ℚ)) ((0 : ℚ), (1 : ℚ)) rfl rfl
  norm_num at h
  exact h

/-- C6 counterexample: on the three-point plateau curve
`[(0, 1), (1, 1), (2, 1)]` the `None` policy applied twice drops two
breakpoints while applied once it drops one, so twice differs from once;
moreover, on a two-point plateau the second application raises
(`IndexError`, modelled as `none`). -/
theorem C6_policy_not_idempotent :
    contention_policy none [((0 : ℚ), (1 : ℚ)), (1, 1), (2, 1)]
      = some [((0 : ℚ), (1 : ℚ)), (1, 1)]
    ∧ (contention_policy none [((0 : ℚ), (1 : ℚ)), (1, 1), (2, 1)]).bind (contention_policy none)
      = some [((0 : ℚ), (1 : ℚ))]
    ∧ (contention_policy none [((0 : ℚ), (1 : ℚ)), (1, 1), (2, 1)]).bind (contention_policy none)
      ≠ contention_policy none [((0 : ℚ), (1 : ℚ)), (1, 1), (2, 1)]
    ∧ (contention_policy none [((0 : ℚ), (1 : ℚ)), (1, 1)]).bind (contention_policy none)
      = none := by
  norm_num [contention_policy, isclose]

/-- C6 amended: the `1.0` policy never alters any curve; the `None`
policy applied twice agrees with applying it once, provided the result of
the first application still has at least two breakpoints and its last two
energy values are not within 1% relative tolerance.  (The unconditional
statement fails: see the counterexample.) -/
theorem C6_policy_idempotence_amended (energy r : List (ℚ × ℚ))
    (hr : contention_policy none energy = some r)
    (lastB sndLast : ℚ × ℚ)
    (hlast : r.getLast? = some lastB)
    (hsnd : r.dropLast.getLast? = some sndLast)
    (hfar : ¬ |lastB.2 - sndLast.2| ≤ 1 / 100 * max |lastB.2| |sndLast.2|) :
    (∀ e : List (ℚ × ℚ), contention_policy (some 1) e = some e)
    ∧ (contention_policy none energy).bind (contention_policy none)
        = contention_policy none energy := by
  refine ⟨contention_policy_one, ?_⟩
  rw [hr, Option.some_bind]
  have hfalse : isclose lastB.2 sndLast.2 (1 / 100) 0 = false := by
    rw [Bool.eq_false_iff]
    intro htrue
    exact hfar ((isclose_rel_iff lastB.2 sndLast.2).mp htrue)
  simp only [contention_policy, hlast, hsnd, hfalse]
  simp

/-- Witness for the amended C6 at the curve `[(0, 1), (2, 50)]`. -/
theorem C6_policy_idempotence_amended_witness :
    (∀ e : List (ℚ × ℚ), contention_policy (some 1) e = some e)
    ∧ (contention_policy none [((0 : ℚ), (1 : ℚ)), (2, 50)]).bind (contention_policy none)
        = contention_policy none [((0 : ℚ), (1 : ℚ)), (2, 50)] :=
  C6_policy_idempotence_amended [((0 : ℚ), (1 : ℚ)), (2, 50)] [((0 : ℚ), (1 : ℚ)), (2, 50)]
    (by norm_num [contention_policy, isclose]) ((2 : ℚ), (50 : ℚ)) ((0 : ℚ), (1 : ℚ))
    rfl rfl (by norm_num)

/-- C10: a cluster whose energy curve has fewer than two breakpoints makes
`DeviceOptimizer.__init__` raise `IndexError` (the policy reads the
second-to-last breakpoint) under `contention_corr = None` and under any
`contention_corr` other than 1, while construction with
`contention_corr = 1.0` succeeds on the same input and keeps every curve
unchanged. -/
theorem C10_short_curve (clusters : List Cluster) (cl : Cluster) (hcl : cl ∈ clusters)
    (hshort : cl.energy.length < 2) (k : ℚ) (hk : k ≠ 1) :
    build_e_bpts none clusters = none
    ∧ build_e_bpts (some k) clusters = none
    ∧ build_e_bpts (some 1) clusters = some (clusters.map (fun c => (c.id, c.energy))) :=
  ⟨build_e_bpts_none_of_mem none cl clusters hcl (contention_policy_short_none cl.energy hshort),
   build_e_bpts_none_of_mem (some k) cl clusters hcl
     (contention_policy_short_some cl.energy hshort k hk),
   build_e_bpts_one clusters⟩

/-- Witness for C10: a single cluster whose curve has one breakpoint. -/
theorem C10_short_curve_witness :
    build_e_bpts none [(⟨5, 0, 3, [(0, 2)], 0⟩ : Cluster)] = none
    ∧ build_e_bpts (some 2) [(⟨5, 0, 3, [(0, 2)], 0⟩ : Cluster)] = none
    ∧ build_e_bpts (some 1) [(⟨5, 0, 3, [(0, 2)], 0⟩ : Cluster)]
      = some [((5 : Int), [((0 : ℚ), (2 : ℚ))])] := by
  have h := C10_short_curve [(⟨5, 0, 3, [(0, 2)], 0⟩ : Cluster)] (⟨5, 0, 3, [(0, 2)], 0⟩ : Cluster)
    (by simp) (by norm_num) 2 (by norm_num)
  simpa using h

/- ----------------------------------------------------------------- -/
/- Helper lemmas for extraction and sorting                          -/
/- ----------------------------------------------------------------- -/

lemma pyround_intCast (k : ℤ) : pyround (k : ℚ) = k := by
  unfold pyround
  rw [Int.floor_intCast]
  rw [if_pos (by norm_num : (k : ℚ) - (k : ℚ) < 1 / 2)]

lemma pyround_zero : pyround 0 = 0 := by
  simpa using pyround_intCast 0

lemma pyround_one : pyround 1 = 1 := by
  simpa using pyround_intCast 1

lemma sort_bpts_pair (a b : ℚ × ℚ) (h : a.1 < b.1) : sort_bpts [a, b] = [a, b] := by
  unfold sort_bpts
  apply List.mergeSort_of_sorted
  simp [h]

/-- C1: `create_cluster_pool` initialises `interc_energy`, `cont`,
`cont_energy` and `cap` once, before the cluster loop, so a cluster's
three-point curve also aggregates the hosts of every previously processed
cluster.  At the two-cluster snapshot below, cluster 2's curve comes out
as `[(0, 5), (6, 80), (6, 80)]` — its idle energy is cluster 1's host
minimum, and its contention/capacity points include cluster 1's host —
although the same cluster alone yields `[(0, 7), (2, 30), (2, 30)]`. -/
theorem C1_cluster_pool_accumulator_leak :
    (create_cluster_pool
        [⟨1, 0, [⟨none, 400, some ((0, 5), [(4, 50)]), [4]⟩]⟩,
         ⟨2, 0, [⟨none, 200, some ((0, 7), [(2, 30)]), [2]⟩]⟩]).map PoolCluster.energy
      = [[(0, ((5 : ℚ) : WithTop ℚ)), (4, ((50 : ℚ) : WithTop ℚ)), (4, ((50 : ℚ) : WithTop ℚ))],
         [(0, ((5 : ℚ) : WithTop ℚ)), (6, ((80 : ℚ) : WithTop ℚ)), (6, ((80 : ℚ) : WithTop ℚ))]]
    ∧ (create_cluster_pool
        [⟨2, 0, [⟨none, 200, some ((0, 7), [(2, 30)]), [2]⟩]⟩]).map PoolCluster.energy
      = [[(0, ((7 : ℚ) : WithTop ℚ)), (2, ((30 : ℚ) : WithTop ℚ)), (2, ((30 : ℚ) : WithTop ℚ))]] := by
  constructor
  · norm_num [create_cluster_pool, process_cluster, process_host, host_energy_curve,
      cont_match_energy, _parse_contention, isclose, List.find?, min_def,
      WithTop.coe_le_coe, top_le_iff, WithTop.coe_ne_top]
    exact_mod_cast (by norm_num : (5 : ℚ) ≤ 7)
  · norm_num [create_cluster_pool, process_cluster, process_host, host_energy_curve,
      cont_match_energy, _parse_contention, isclose, List.find?, min_def,
      WithTop.coe_le_coe, top_le_iff, WithTop.coe_ne_top]

/-- C7: the two-phase solve first attempts the strict
(`contention_corr = None`) solve; when that attempt yields a populated
result, the result is returned and the outcome does not depend on the
oracle's answer for the penalized attempt (no second solve is consulted);
when the strict attempt yields the sentinel, the returned result is
exactly that of the penalized attempt with the caller-supplied
`contention_corr` — in particular the sentinel when both attempts fail. -/
theorem C7_two_phase (devices : List Device) (clusters : List Cluster)
    (min_capacity : ℚ) (max_capacity : Option ℚ) (contention_corr : ℚ)
    (oracle oracle' : Option ℚ → LpStatus × Assignment) :
    (∀ t, DeviceOptimizer.optimize devices clusters min_capacity max_capacity none
        (oracle none).1 (oracle none).2 = SolveOut.sol t →
      optimize_contention devices clusters min_capacity max_capacity contention_corr oracle
        = SolveOut.sol t
      ∧ (oracle' none = oracle none →
          optimize_contention devices clusters min_capacity max_capacity contention_corr oracle'
            = SolveOut.sol t))
    ∧ (DeviceOptimizer.optimize devices clusters min_capacity max_capacity none
        (oracle none).1 (oracle none).2 = SolveOut.noSol →
      optimize_contention devices clusters min_capacity max_capacity contention_corr oracle
        = DeviceOptimizer.optimize devices clusters min_capacity max_capacity
            (some contention_corr) (oracle (some contention_corr)).1
            (oracle (some contention_corr)).2) := by
  constructor
  · intro t hsol
    constructor
    · simp only [optimize_contention, hsol]
    · intro heq
      simp only [optimize_contention, heq, hsol]
  · intro hno
    simp only [optimize_contention, hno]

/-- Witness for C7: one device feasible for one cluster, an oracle that
reports an optimal solve assigning the device; the strict attempt
succeeds and its triple is returned. -/
theorem C7_two_phase_witness :
    optimize_contention [⟨1, 1, 1/2, [7]⟩] [⟨7, 0, 4, [(0, 1), (4, 10)], 1⟩] 0 none 2
        (fun _ => (LpStatus.optimal,
          ⟨fun _ _ => 1, fun _ => 1, fun _ _ => 1, fun _ _ => 0⟩))
      = SolveOut.sol ([(1, 7)], [(7, 1)], 1) := by
  have h := (C7_two_phase [⟨1, 1, 1/2, [7]⟩] [⟨7, 0, 4, [(0, 1), (4, 10)], 1⟩] 0 none 2
    (fun _ => (LpStatus.optimal, ⟨fun _ _ => 1, fun _ => 1, fun _ _ => 1, fun _ _ => 0⟩))
    (fun _ => (LpStatus.optimal, ⟨fun _ _ => 1, fun _ => 1, fun _ _ => 1, fun _ _ => 0⟩))).1
    ([(1, 7)], [(7, 1)], 1) ?_
  · exact h.1
  · norm_num [DeviceOptimizer.optimize, build_e_bpts, contention_policy, isclose,
      extract_allocs, x_keys, alloc_step, dinsert, pyround_one, extract_n_vms, n_vms_step,
      objective_value, energy_value, segs, seg_term_energy,
      sort_bpts_pair ((0 : ℚ), (1 : ℚ)) ((4 : ℚ), (10 : ℚ)) (by norm_num)]

/-- C8: a single solve returns the populated triple exactly when the
solver's terminal status is optimal, and the empty-tuple sentinel (as
data, not an exception) otherwise; no other result shape exists. -/
theorem C8_single_solve (devices : List Device) (clusters : List Cluster)
    (min_capacity : ℚ) (max_capacity : Option ℚ) (contention_corr : Option ℚ)
    (e_bpts : List (Int × List (ℚ × ℚ)))
    (hbuild : build_e_bpts contention_corr clusters = some e_bpts)
    (status : LpStatus) (σ : Assignment) :
    (status = LpStatus.optimal →
      DeviceOptimizer.optimize devices clusters min_capacity max_capacity contention_corr
          status σ
        = SolveOut.sol (extract_allocs devices σ, extract_n_vms clusters σ,
            objective_value clusters e_bpts σ))
    ∧ (status ≠ LpStatus.optimal →
      DeviceOptimizer.optimize devices clusters min_capacity max_capacity contention_corr
          status σ = SolveOut.noSol)
    ∧ (∀ t, DeviceOptimizer.optimize devices clusters min_capacity max_capacity contention_corr
          status σ = SolveOut.sol t → status = LpStatus.optimal) := by
  refine ⟨?_, ?_, ?_⟩
  · intro hopt
    simp only [DeviceOptimizer.optimize, hbuild, hopt, eq_self_iff_true, if_true]
  · intro hnot
    simp only [DeviceOptimizer.optimize, hbuild, if_neg hnot]
  · intro t hsol
    by_contra hnot
    simp only [DeviceOptimizer.optimize, hbuild, if_neg hnot] at hsol
    exact SolveOut.noConfusion hsol

/-- Witness for C8: with a non-optimal terminal status the sentinel is
returned. -/
theorem C8_single_solve_witness :
    DeviceOptimizer.optimize [⟨1, 1, 1/2, [7]⟩] [⟨7, 0, 4, [(0, 0), (4, 10)], 1⟩] 0 none
        (some 1) LpStatus.infeasible
        ⟨fun _ _ => 0, fun _ => 0, fun _ _ => 0, fun _ _ => 0⟩
      = SolveOut.noSol :=
  (C8_single_solve [⟨1, 1, 1/2, [7]⟩] [⟨7, 0, 4, [(0, 0), (4, 10)], 1⟩] 0 none (some 1)
    [((7 : Int), [((0 : ℚ), (0 : ℚ)), (4, 10)])]
    (by norm_num [build_e_bpts, contention_policy]) LpStatus.infeasible
    ⟨fun _ _ => 0, fun _ => 0, fun _ _ => 0, fun _ _ => 0⟩).2.1 (by simp)

/- ----------------------------------------------------------------- -/
/- Lemmas about dictionary extraction                                -/
/- ----------------------------------------------------------------- -/

lemma dget_dinsert_self {α : Type} (m : List (Int × α)) (k : Int) (v : α) :
    dget (dinsert m k v) k = some v := by
  induction m with
  | nil => simp [dinsert, dget]
  | cons p m ih =>
    by_cases h : p.1 = k
    · simp [dinsert, h, dget]
    · simp only [dinsert, if_neg h]
      unfold dget
      rw [List.find?_cons_of_neg _ (by simp [h])]
      exact ih

lemma dget_dinsert_ne {α : Type} (m : List (Int × α)) (k k' : Int) (v : α) (h : k' ≠ k) :
    dget (dinsert m k' v) k = dget m k := by
  induction m with
  | nil =>
    show dget [(k', v)] k = dget [] k
    unfold dget
    rw [List.find?_cons_of_neg _ (by simp [h])]
  | cons p m ih =>
    by_cases hp : p.1 = k'
    · simp only [dinsert, if_pos hp]
      unfold dget
      rw [List.find?_cons_of_neg _ (by simp [h]), List.find?_cons_of_neg _ (by simp [hp, h])]
    · simp only [dinsert, if_neg hp]
      by_cases hk : p.1 = k
      · unfold dget
        rw [List.find?_cons_of_pos _ (by simp [hk]), List.find?_cons_of_pos _ (by simp [hk])]
      · unfold dget
        rw [List.find?_cons_of_neg _ (by simp [hk]), List.find?_cons_of_neg _ (by simp [hk])]
        exact ih

/-- Accumulator view of the allocation-extraction fold at a fixed key. -/
def alloc_acc (σ : Assignment) (k : Int) (a : Option Int) (dc : Int × Int) : Option Int :=
  if dc.1 = k ∧ pyround (σ.x dc.1 dc.2) ≠ 0 then some dc.2 else a

lemma dget_alloc_foldl (σ : Assignment) (k : Int) :
    ∀ (L : List (Int × Int)) (m : List (Int × Int)),
      dget (L.foldl (alloc_step σ) m) k = L.foldl (alloc_acc σ k) (dget m k) := by
  intro L
  induction L with
  | nil => intro m; rfl
  | cons dc L ih =>
    intro m
    rw [List.foldl_cons, List.foldl_cons, ih]
    congr 1
    unfold alloc_step alloc_acc
    by_cases h1 : pyround (σ.x dc.1 dc.2) ≠ 0
    · rw [if_pos h1]
      by_cases h2 : dc.1 = k
      · rw [if_pos ⟨h2, h1⟩, ← h2, dget_dinsert_self]
      · rw [if_neg (by tauto), dget_dinsert_ne _ _ _ _ h2]
    · rw [if_neg h1, if_neg (by tauto)]

lemma alloc_acc_block_ne (σ : Assignment) (k i : Int) (hne : i ≠ k) :
    ∀ (cs : List Int) (a : Option Int),
      (cs.map (fun c => (i, c))).foldl (alloc_acc σ k) a = a := by
  intro cs
  induction cs with
  | nil => intro a; rfl
  | cons c cs ih =>
    intro a
    rw [List.map_cons, List.foldl_cons]
    rw [show alloc_acc σ k a (i, c) = a from by unfold alloc_acc; rw [if_neg (by tauto)]]
    exact ih a

lemma alloc_acc_block_self (σ : Assignment) (i : Int) :
    ∀ (cs : List Int) (a : Option Int),
      (cs.map (fun c => (i, c))).foldl (alloc_acc σ i) a
        = cs.foldl (fun a c => if pyround (σ.x i c) ≠ 0 then some c else a) a := by
  intro cs
  induction cs with
  | nil => intro a; rfl
  | cons c cs ih =>
    intro a
    rw [List.map_cons, List.foldl_cons, List.foldl_cons, ih]
    congr 1
    unfold alloc_acc
    by_cases h : pyround (σ.x i c) ≠ 0
    · rw [if_pos ⟨rfl, h⟩, if_pos h]
    · rw [if_neg (by tauto), if_neg h]

lemma x_keys_foldl_ne (σ : Assignment) (k : Int) :
    ∀ (ds : List Device), (∀ d' ∈ ds, d'.id ≠ k) → ∀ (a : Option Int),
      (x_keys ds).foldl (alloc_acc σ k) a = a := by
  intro ds
  induction ds with
  | nil => intro _ a; rfl
  | cons d0 rest ih =>
    intro hne a
    have hxk : x_keys (d0 :: rest)
        = (d0.cluster_ids.map (fun c => (d0.id, c))) ++ x_keys rest := by
      simp [x_keys]
    rw [hxk, List.foldl_append,
      alloc_acc_block_ne σ k d0.id (hne d0 (List.mem_cons_self d0 rest)) d0.cluster_ids a]
    exact ih (fun d' hd' => hne d' (List.mem_cons_of_mem d0 hd')) a

lemma dget_extract_allocs (σ : Assignment) :
    ∀ (devices : List Device), (devices.map Device.id).Nodup →
      ∀ d ∈ devices,
        dget (extract_allocs devices σ) d.id
          = d.cluster_ids.foldl
              (fun a c => if pyround (σ.x d.id c) ≠ 0 then some c else a) none := by
  intro devices
  induction devices with
  | nil => intro _ d hd; simp at hd
  | cons d0 rest ih =>
    intro hnd d hd
    have hnd0 : d0.id ∉ rest.map Device.id := by
      rw [List.map_cons] at hnd
      exact (List.nodup_cons.mp hnd).1
    have hndr : (rest.map Device.id).Nodup := by
      rw [List.map_cons] at hnd
      exact (List.nodup_cons.mp hnd).2
    have hxk : x_keys (d0 :: rest)
        = (d0.cluster_ids.map (fun c => (d0.id, c))) ++ x_keys rest := by
      simp [x_keys]
    rcases List.mem_cons.mp hd with rfl | hmem
    · show dget ((x_keys (d :: rest)).foldl (alloc_step σ) []) d.id = _
      rw [dget_alloc_foldl, hxk, List.foldl_append]
      have hrest : ∀ d' ∈ rest, d'.id ≠ d.id := by
        intro d' hd' heq
        exact hnd0 (heq ▸ List.mem_map_of_mem Device.id hd')
      rw [x_keys_foldl_ne σ d.id rest hrest]
      exact alloc_acc_block_self σ d.id d.cluster_ids (dget ([] : List (Int × Int)) d.id)
    · show dget ((x_keys (d0 :: rest)).foldl (alloc_step σ) []) d.id = _
      rw [dget_alloc_foldl, hxk, List.foldl_append]
      have hne : d0.id ≠ d.id := by
        intro heq
        exact hnd0 (heq ▸ List.mem_map_of_mem Device.id hmem)
      rw [alloc_acc_block_ne σ d.id d0.id hne d0.cluster_ids _]
      rw [← dget_alloc_foldl σ d.id (x_keys rest) []]
      exact ih hndr d hmem

/- ----------------------------------------------------------------- -/
/- Lemmas about sums of binary variables                             -/
/- ----------------------------------------------------------------- -/

lemma binary_sum_nonneg (f : Int → ℚ) :
    ∀ cs : List Int, (∀ c ∈ cs, f c = 0 ∨ f c = 1) → 0 ≤ (cs.map f).sum := by
  intro cs
  induction cs with
  | nil => intro _; simp
  | cons c cs ih =>
    intro hb
    rw [List.map_cons, List.sum_cons]
    have h0 : 0 ≤ f c := by rcases hb c (by simp) with h | h <;> rw [h] <;> norm_num
    have h1 := ih (fun c' hc' => hb c' (List.mem_cons_of_mem c hc'))
    linarith

lemma binary_sum_ge_one (f : Int → ℚ) :
    ∀ cs : List Int, (∀ c ∈ cs, f c = 0 ∨ f c = 1) →
      ∀ c0 ∈ cs, f c0 = 1 → 1 ≤ (cs.map f).sum := by
  intro cs
  induction cs with
  | nil => intro _ c0 h; simp at h
  | cons c cs ih =>
    intro hb c0 hc0 hf
    rw [List.map_cons, List.sum_cons]
    have htail : ∀ c' ∈ cs, f c' = 0 ∨ f c' = 1 :=
      fun c' hc' => hb c' (List.mem_cons_of_mem c hc')
    rcases List.mem_cons.mp hc0 with rfl | hmem
    · have := binary_sum_nonneg f cs htail
      linarith [hf]
    · have h0 : 0 ≤ f c := by rcases hb c (by simp) with h | h <;> rw [h] <;> norm_num
      have := ih htail c0 hmem hf
      linarith

lemma binary_sum_ge_two (f : Int → ℚ) :
    ∀ cs : List Int, (∀ c ∈ cs, f c = 0 ∨ f c = 1) →
      ∀ c0 ∈ cs, ∀ c1 ∈ cs, c0 ≠ c1 → f c0 = 1 → f c1 = 1 →
        2 ≤ (cs.map f).sum := by
  intro cs
  induction cs with
  | nil => intro _ c0 h; simp at h
  | cons c cs ih =>
    intro hb c0 hc0 c1 hc1 hne hf0 hf1
    rw [List.map_cons, List.sum_cons]
    have htail : ∀ c' ∈ cs, f c' = 0 ∨ f c' = 1 :=
      fun c' hc' => hb c' (List.mem_cons_of_mem c hc')
    rcases List.mem_cons.mp hc0 with rfl | hmem0
    · rcases List.mem_cons.mp hc1 with rfl | hmem1
      · exact absurd rfl hne
      · have := binary_sum_ge_one f cs htail c1 hmem1 hf1
        linarith [hf0]
    · rcases List.mem_cons.mp hc1 with rfl | hmem1
      · have := binary_sum_ge_one f cs htail c0 hmem0 hf0
        linarith [hf1]
      · have h0 : 0 ≤ f c := by rcases hb c (by simp) with h | h <;> rw [h] <;> norm_num
        have := ih htail c0 hmem0 c1 hmem1 hne hf0 hf1
        linarith

lemma binary_sum_exists_one (f : Int → ℚ) :
    ∀ cs : List Int, (∀ c ∈ cs, f c = 0 ∨ f c = 1) → (cs.map f).sum = 1 →
      ∃ c0 ∈ cs, f c0 = 1 := by
  intro cs
  induction cs with
  | nil => intro _ h; simp at h
  | cons c cs ih =>
    intro hb hsum
    have htail : ∀ c' ∈ cs, f c' = 0 ∨ f c' = 1 :=
      fun c' hc' => hb c' (List.mem_cons_of_mem c hc')
    rcases hb c (by simp) with h0 | h1
    · rw [List.map_cons, List.sum_cons, h0, zero_add] at hsum
      obtain ⟨c0, hc0, hf⟩ := ih htail hsum
      exact ⟨c0, List.mem_cons_of_mem c hc0, hf⟩
    · exact ⟨c, by simp, h1⟩

/-- Under the solver contract, a device whose feasible set is non-empty
has exactly one assignment variable equal to 1. -/
lemma exists_unique_assignment (σ : Assignment) (d : Device)
    (hbin : ∀ c ∈ d.cluster_ids, IsBinary (σ.x d.id c))
    (hsum : (d.cluster_ids.map (σ.x d.id)).sum = 1) :
    ∃ c0 ∈ d.cluster_ids, σ.x d.id c0 = 1
      ∧ ∀ c ∈ d.cluster_ids, σ.x d.id c = 1 → c = c0 := by
  obtain ⟨c0, hc0, hf⟩ := binary_sum_exists_one (σ.x d.id) d.cluster_ids hbin hsum
  refine ⟨c0, hc0, hf, ?_⟩
  intro c hc hfc
  by_contra hne
  have := binary_sum_ge_two (σ.x d.id) d.cluster_ids hbin c hc c0 hc0
    (fun h => hne h) hfc hf
  rw [hsum] at this
  norm_num at this

/- ----------------------------------------------------------------- -/
/- Lemmas relating the fold of the allocation extraction to the      -/
/- unique assigned cluster                                           -/
/- ----------------------------------------------------------------- -/

lemma foldl_if_const (P : Int → Prop) [DecidablePred P] (c0 : Int) :
    ∀ cs : List Int, (∀ c ∈ cs, P c → c = c0) →
      cs.foldl (fun a c => if P c then some c else a) (some c0) = some c0 := by
  intro cs
  induction cs with
  | nil => intro _; rfl
  | cons c cs ih =>
    intro hu
    rw [List.foldl_cons]
    by_cases h : P c
    · rw [if_pos h, hu c (by simp) h]
      exact ih (fun c' hc' => hu c' (List.mem_cons_of_mem c hc'))
    · rw [if_neg h]
      exact ih (fun c' hc' => hu c' (List.mem_cons_of_mem c hc'))

lemma foldl_if_unique (P : Int → Prop) [DecidablePred P] (c0 : Int) :
    ∀ cs : List Int, c0 ∈ cs → P c0 → (∀ c ∈ cs, P c → c = c0) →
      cs.foldl (fun a c => if P c then some c else a) none = some c0 := by
  intro cs
  induction cs with
  | nil => intro h; simp at h
  | cons c cs ih =>
    intro hmem hP hu
    rw [List.foldl_cons]
    have htail : ∀ c' ∈ cs, P c' → c' = c0 :=
      fun c' hc' => hu c' (List.mem_cons_of_mem c hc')
    by_cases h : P c
    · rw [if_pos h, hu c (by simp) h]
      exact foldl_if_const P c0 cs htail
    · rw [if_neg h]
      rcases List.mem_cons.mp hmem with rfl | hmem'
      · exact absurd hP h
      · exact ih hmem' hP htail

/-- Under the solver contract and unique device ids, the extracted
allocations dictionary maps a device with a non-empty feasible set to its
unique assigned cluster. -/
lemma dget_allocs_eq_unique (σ : Assignment) (devices : List Device)
    (hids : (devices.map Device.id).Nodup) (d : Device) (hd : d ∈ devices)
    (c0 : Int) (hc0 : c0 ∈ d.cluster_ids)
    (hbin : ∀ c ∈ d.cluster_ids, IsBinary (σ.x d.id c))
    (hone : σ.x d.id c0 = 1)
    (huniq : ∀ c ∈ d.cluster_ids, σ.x d.id c = 1 → c = c0) :
    dget (extract_allocs devices σ) d.id = some c0 := by
  rw [dget_extract_allocs σ devices hids d hd]
  apply foldl_if_unique (fun c => pyround (σ.x d.id c) ≠ 0) c0 d.cluster_ids hc0
  · rw [hone, pyround_one]
    norm_num
  · intro c hc hP
    rcases hbin c hc with h0 | h1
    · rw [h0, pyround_zero] at hP
      norm_num at hP
    · exact huniq c hc h1

/-- A device with an empty feasible set never appears in the extracted
allocations dictionary. -/
lemma dget_allocs_empty (σ : Assignment) (devices : List Device)
    (hids : (devices.map Device.id).Nodup) (d : Device) (hd : d ∈ devices)
    (hnil : d.cluster_ids = []) :
    dget (extract_allocs devices σ) d.id = none := by
  rw [dget_extract_allocs σ devices hids d hd, hnil]
  rfl

/-- C3 amended: in any optimal result, every device with a NON-EMPTY
feasible set is mapped by the allocations dictionary to exactly one
cluster, which lies in its `cluster_ids`; assignment variables exist only
for pairs `(d, c)` with `c ∈ d.cluster_ids`.  (The unamended claim, over
every device, fails for a device with empty `cluster_ids`: see the
counterexample.) -/
theorem C3_alloc_feasible (devices : List Device) (clusters : List Cluster)
    (min_capacity : ℚ) (max_capacity : Option ℚ) (contention_corr : Option ℚ)
    (e_bpts : List (Int × List (ℚ × ℚ))) (σ : Assignment)
    (hids : (devices.map Device.id).Nodup)
    (hbuild : build_e_bpts contention_corr clusters = some e_bpts)
    (hsat : Satisfies devices clusters e_bpts min_capacity
      (resolve_cap_ub clusters max_capacity) σ)
    (allocs : List (Int × Int)) (vm_counts : List (Int × ℤ)) (obj : ℚ)
    (hopt : DeviceOptimizer.optimize devices clusters min_capacity max_capacity contention_corr
        LpStatus.optimal σ = SolveOut.sol (allocs, vm_counts, obj)) :
    (∀ d ∈ devices, d.cluster_ids ≠ [] →
      ∃ c ∈ d.cluster_ids, dget allocs d.id = some c
        ∧ ∀ c' ∈ d.cluster_ids, σ.x d.id c' = 1 → c' = c)
    ∧ (∀ dc ∈ x_keys devices, ∃ d ∈ devices, dc.1 = d.id ∧ dc.2 ∈ d.cluster_ids) := by
  simp only [DeviceOptimizer.optimize, hbuild, eq_self_iff_true, if_true,
    SolveOut.sol.injEq, Prod.mk.injEq] at hopt
  obtain ⟨h1, h2, h3⟩ := hopt
  constructor
  · intro d hd hne
    obtain ⟨c0, hc0, hone, huniq⟩ :=
      exists_unique_assignment σ d (hsat.x_binary d hd) (hsat.one_alloc d hd hne)
    refine ⟨c0, hc0, ?_, huniq⟩
    rw [← h1]
    exact dget_allocs_eq_unique σ devices hids d hd c0 hc0 (hsat.x_binary d hd) hone huniq
  · intro dc hdc
    rw [x_keys, List.mem_flatMap] at hdc
    obtain ⟨d, hd, hmem⟩ := hdc
    rw [List.mem_map] at hmem
    obtain ⟨c, hc, rfl⟩ := hmem
    exact ⟨d, hd, rfl, hc⟩

/-- C3 counterexample: a device with an empty feasible set receives no
assignment variable and no exactly-one constraint, so the model below is
satisfied by the all-zero assignment, the solve is optimal, and the
returned allocations dictionary is empty — the device is mapped to no
cluster at all, contradicting the claim for every device of the input. -/
theorem C3_empty_feasible_set_unallocated :
    Satisfies [⟨1, 1, 1/2, ([] : List Int)⟩] [⟨7, 0, 4, [(0, 1), (4, 10)], 1⟩]
        [((7 : Int), [((0 : ℚ), (1 : ℚ)), ((4 : ℚ), (10 : ℚ))])] 0
        (resolve_cap_ub [⟨7, 0, 4, [(0, 1), (4, 10)], 1⟩] none)
        ⟨fun _ _ => 0, fun _ => 0, fun _ _ => 1, fun _ _ => 0⟩
    ∧ build_e_bpts (some 1) [⟨7, 0, 4, [(0, 1), (4, 10)], 1⟩]
        = some [((7 : Int), [((0 : ℚ), (1 : ℚ)), ((4 : ℚ), (10 : ℚ))])]
    ∧ DeviceOptimizer.optimize [⟨1, 1, 1/2, ([] : List Int)⟩]
        [⟨7, 0, 4, [(0, 1), (4, 10)], 1⟩] 0 none (some 1) LpStatus.optimal
        ⟨fun _ _ => 0, fun _ => 0, fun _ _ => 1, fun _ _ => 0⟩
      = SolveOut.sol ([], [(7, 0)], 1)
    ∧ dget ([] : List (Int × Int)) 1 = none := by
  refine ⟨?_, ?_, ?_, rfl⟩
  · constructor
    all_goals
      norm_num [IsBinary, has_feasible, cluster_load, cluster_load_energy, cpu_value,
        seg_term_cpu, segs, resolve_cap_ub, Rat.den_ofNat,
        sort_bpts_pair ((0 : ℚ), (1 : ℚ)) ((4 : ℚ), (10 : ℚ)) (by norm_num)]
  · norm_num [build_e_bpts, contention_policy]
  · norm_num [DeviceOptimizer.optimize, build_e_bpts, contention_policy, isclose,
      extract_allocs, x_keys, extract_n_vms, n_vms_step, dinsert, pyround_zero,
      objective_value, energy_value, segs, seg_term_energy,
      sort_bpts_pair ((0 : ℚ), (1 : ℚ)) ((4 : ℚ), (10 : ℚ)) (by norm_num)]

/-- Witness for the amended C3: one device feasible for one cluster under
a satisfying optimal assignment; the device is mapped to that cluster. -/
theorem C3_alloc_feasible_witness :
    (∀ d ∈ [(⟨1, 1, 1/2, [7]⟩ : Device)], d.cluster_ids ≠ [] →
      ∃ c ∈ d.cluster_ids, dget [(1, 7)] d.id = some c
        ∧ ∀ c' ∈ d.cluster_ids,
          (⟨fun _ _ => 1, fun _ => 1, fun _ _ => 1, fun _ _ => 1/4⟩ : Assignment).x d.id c' = 1
            → c' = c)
    ∧ (∀ dc ∈ x_keys [(⟨1, 1, 1/2, [7]⟩ : Device)],
        ∃ d ∈ [(⟨1, 1, 1/2, [7]⟩ : Device)], dc.1 = d.id ∧ dc.2 ∈ d.cluster_ids) := by
  have h := C3_alloc_feasible [(⟨1, 1, 1/2, [7]⟩ : Device)] [⟨7, 0, 4, [(0, 1), (4, 10)], 1⟩]
    0 none (some 1) [((7 : Int), [((0 : ℚ), (1 : ℚ)), ((4 : ℚ), (10 : ℚ))])]
    ⟨fun _ _ => 1, fun _ => 1, fun _ _ => 1, fun _ _ => 1/4⟩
    (by simp)
    (by norm_num [build_e_bpts, contention_policy])
    ?_ [(1, 7)] [(7, 1)] (13/4) ?_
  · exact h
  · constructor
    all_goals
      norm_num [IsBinary, has_feasible, cluster_load, cluster_load_energy, cpu_value,
        seg_term_cpu, segs, resolve_cap_ub, Rat.den_ofNat,
        sort_bpts_pair ((0 : ℚ), (1 : ℚ)) ((4 : ℚ), (10 : ℚ)) (by norm_num)]
  · norm_num [DeviceOptimizer.optimize, build_e_bpts, contention_policy, isclose,
      extract_allocs, x_keys, alloc_step, dinsert, pyround_one, extract_n_vms, n_vms_step,
      objective_value, energy_value, segs, seg_term_energy,
      sort_bpts_pair ((0 : ℚ), (1 : ℚ)) ((4 : ℚ), (10 : ℚ)) (by norm_num)]

/- ----------------------------------------------------------------- -/
/- Lemmas for the VM-count ceiling claim                             -/
/- ----------------------------------------------------------------- -/

lemma sum_filter_map_eq (p : Device → Bool) (f : Device → ℚ) :
    ∀ l : List Device,
      ((l.filter p).map f).sum = (l.map (fun d => if p d then f d else 0)).sum := by
  intro l
  induction l with
  | nil => rfl
  | cons d l ih =>
    by_cases h : p d <;> simp [List.filter_cons, h, ih]

/-- Under the solver contract and unique device ids, the value of the
per-cluster capacity-load expression equals the capacity-load sum of the
devices that the extracted dictionary assigns to the cluster. -/
lemma cluster_load_eq_assigned (σ : Assignment) (devices : List Device)
    (hids : (devices.map Device.id).Nodup)
    (hb : ∀ d ∈ devices, ∀ c ∈ d.cluster_ids, IsBinary (σ.x d.id c))
    (hs : ∀ d ∈ devices, d.cluster_ids ≠ [] → (d.cluster_ids.map (σ.x d.id)).sum = 1)
    (c : Int) :
    cluster_load devices σ c = assigned_load devices (extract_allocs devices σ) c := by
  unfold assigned_load
  rw [sum_filter_map_eq]
  unfold cluster_load
  refine congrArg List.sum (List.map_congr_left ?_)
  intro d hd
  by_cases hnil : d.cluster_ids = []
  · rw [dget_allocs_empty σ devices hids d hd hnil, hnil]
    simp
  · obtain ⟨c0, hc0, hone, huniq⟩ := exists_unique_assignment σ d (hb d hd) (hs d hd hnil)
    rw [dget_allocs_eq_unique σ devices hids d hd c0 hc0 (hb d hd) hone huniq]
    by_cases hceq : c0 = c
    · subst hceq
      rw [if_pos hc0, hone, one_mul]
      simp
    · by_cases hmem : c ∈ d.cluster_ids
      · rcases hb d hd c hmem with h0 | h1
        · rw [if_pos hmem, h0, zero_mul]
          simp [hceq]
        · exact absurd (huniq c hmem h1) (fun h => hceq h.symm)
      · rw [if_neg hmem]
        simp [hceq]

lemma n_vms_foldl_ne (σ : Assignment) (k : Int) :
    ∀ (ds : List Cluster), (∀ c' ∈ ds, c'.id ≠ k) →
      ∀ m, dget (ds.foldl (n_vms_step σ) m) k = dget m k := by
  intro ds
  induction ds with
  | nil => intro _ m; rfl
  | cons c0 rest ih =>
    intro hne m
    rw [List.foldl_cons, ih (fun c' hc' => hne c' (List.mem_cons_of_mem c0 hc'))]
    exact dget_dinsert_ne m k c0.id _ (hne c0 (List.mem_cons_self c0 rest))

lemma dget_n_vms_foldl_mem (σ : Assignment) :
    ∀ (ds : List Cluster) (m : List (Int × ℤ)), (ds.map Cluster.id).Nodup →
      ∀ cl ∈ ds, dget (ds.foldl (n_vms_step σ) m) cl.id = some (pyround (σ.n_vms cl.id)) := by
  intro ds
  induction ds with
  | nil => intro m _ cl hcl; simp at hcl
  | cons c0 rest ih =>
    intro m hnd cl hcl
    have hnd0 : c0.id ∉ rest.map Cluster.id := by
      rw [List.map_cons] at hnd
      exact (List.nodup_cons.mp hnd).1
    have hndr : (rest.map Cluster.id).Nodup := by
      rw [List.map_cons] at hnd
      exact (List.nodup_cons.mp hnd).2
    rw [List.foldl_cons]
    rcases List.mem_cons.mp hcl with rfl | hmem
    · have hrest : ∀ c' ∈ rest, c'.id ≠ cl.id := by
        intro c' hc' heq
        exact hnd0 (heq ▸ List.mem_map_of_mem Cluster.id hc')
      rw [n_vms_foldl_ne σ cl.id rest hrest]
      exact dget_dinsert_self m cl.id _
    · exact ih (n_vms_step σ m c0) hndr cl hmem

lemma dget_extract_n_vms (σ : Assignment) (clusters : List Cluster)
    (hclids : (clusters.map Cluster.id).Nodup) (cl : Cluster) (hcl : cl ∈ clusters) :
    dget (extract_n_vms clusters σ) cl.id = some (pyround (σ.n_vms cl.id)) :=
  dget_n_vms_foldl_mem σ clusters [] hclids cl hcl

lemma q_eq_num_of_den_one (q : ℚ) (h : q.den = 1) : ((q.num : ℚ)) = q := by
  conv_rhs => rw [← Rat.num_div_den q]
  rw [h]
  simp

lemma int_ceil_unique (q : ℚ) (k : ℤ) (h1 : q ≤ (k : ℚ)) (h2 : (k : ℚ) ≤ q + 9999 / 10000) :
    k = ⌈q⌉ := by
  have hk1 : ⌈q⌉ ≤ k := Int.ceil_le.mpr h1
  have hk2 : k ≤ ⌈q⌉ := by
    by_contra h
    push_neg at h
    have hcast : ((⌈q⌉ : ℚ) + 1) ≤ (k : ℚ) := by exact_mod_cast h
    have hq : q ≤ ((⌈q⌉ : ℚ)) := Int.le_ceil q
    linarith
  omega

/-- C4: in any optimal result, for every cluster with at least one
assigned device, the reported VM count equals the smallest integer
greater than or equal to the capacity-load sum of the devices assigned to
that cluster, as forced by the pair of linkage constraints
`cluster_load ≤ n_vms` and `cluster_load + 0.9999 ≥ n_vms` on the integer
variable. -/
theorem C4_vm_count_ceiling (devices : List Device) (clusters : List Cluster)
    (min_capacity : ℚ) (max_capacity : Option ℚ) (contention_corr : Option ℚ)
    (e_bpts : List (Int × List (ℚ × ℚ))) (σ : Assignment)
    (hids : (devices.map Device.id).Nodup)
    (hclids : (clusters.map Cluster.id).Nodup)
    (hbuild : build_e_bpts contention_corr clusters = some e_bpts)
    (hsat : Satisfies devices clusters e_bpts min_capacity
      (resolve_cap_ub clusters max_capacity) σ)
    (allocs : List (Int × Int)) (vm_counts : List (Int × ℤ)) (obj : ℚ)
    (hopt : DeviceOptimizer.optimize devices clusters min_capacity max_capacity contention_corr
        LpStatus.optimal σ = SolveOut.sol (allocs, vm_counts, obj))
    (cl : Cluster) (hcl : cl ∈ clusters)
    (d : Device) (hd : d ∈ devices)
    (hassigned : dget allocs d.id = some cl.id) :
    dget vm_counts cl.id = some ⌈assigned_load devices allocs cl.id⌉ := by
  simp only [DeviceOptimizer.optimize, hbuild, eq_self_iff_true, if_true,
    SolveOut.sol.injEq, Prod.mk.injEq] at hopt
  obtain ⟨h1, h2, h3⟩ := hopt
  rw [← h1] at hassigned
  have hne : d.cluster_ids ≠ [] := by
    intro hnil
    rw [dget_allocs_empty σ devices hids d hd hnil] at hassigned
    exact Option.noConfusion hassigned
  obtain ⟨c0, hc0, hone, huniq⟩ :=
    exists_unique_assignment σ d (hsat.x_binary d hd) (hsat.one_alloc d hd hne)
  have hdget := dget_allocs_eq_unique σ devices hids d hd c0 hc0 (hsat.x_binary d hd) hone huniq
  rw [hdget] at hassigned
  have hc0eq : c0 = cl.id := Option.some.inj hassigned
  have hfeas : has_feasible devices cl.id := ⟨d, hd, hc0eq ▸ hc0⟩
  have hlb := hsat.vm_link_lb cl hcl hfeas
  have hub := hsat.vm_link_ub cl hcl hfeas
  have hint := hsat.n_vms_int cl hcl
  have hq : (((σ.n_vms cl.id).num : ℚ)) = σ.n_vms cl.id := q_eq_num_of_den_one _ hint
  have hceil : (σ.n_vms cl.id).num = ⌈cluster_load devices σ cl.id⌉ := by
    refine int_ceil_unique _ _ ?_ ?_
    · rw [hq]; exact hlb
    · rw [hq]; exact hub
  have hpr : pyround (σ.n_vms cl.id) = (σ.n_vms cl.id).num := by
    conv_lhs => rw [← hq]
    rw [pyround_intCast]
  have hload : cluster_load devices σ cl.id = assigned_load devices allocs cl.id := by
    rw [← h1]
    exact cluster_load_eq_assigned σ devices hids hsat.x_binary hsat.one_alloc cl.id
  rw [← h2, dget_extract_n_vms σ clusters hclids cl hcl, hpr, hceil, hload]

/-- Witness for C4: the assigned capacity load of the single assigned
device is 1/2, and the reported VM count is its ceiling 1. -/
theorem C4_vm_count_ceiling_witness :
    dget [((7 : Int), (1 : ℤ))] 7
      = some ⌈assigned_load [(⟨1, 1, 1/2, [7]⟩ : Device)] [(1, 7)] 7⌉ := by
  have h := C4_vm_count_ceiling [(⟨1, 1, 1/2, [7]⟩ : Device)] [⟨7, 0, 4, [(0, 1), (4, 10)], 1⟩]
    0 none (some 1) [((7 : Int), [((0 : ℚ), (1 : ℚ)), ((4 : ℚ), (10 : ℚ))])]
    ⟨fun _ _ => 1, fun _ => 1, fun _ _ => 1, fun _ _ => 1/4⟩
    (by simp) (by simp)
    (by norm_num [build_e_bpts, contention_policy])
    ?_ [(1, 7)] [(7, 1)] (13/4) ?_
    ⟨7, 0, 4, [(0, 1), (4, 10)], 1⟩ (by simp) ⟨1, 1, 1/2, [7]⟩ (by simp) rfl
  · exact h
  · constructor
    all_goals
      norm_num [IsBinary, has_feasible, cluster_load, cluster_load_energy, cpu_value,
        seg_term_cpu, segs, resolve_cap_ub, Rat.den_ofNat,
        sort_bpts_pair ((0 : ℚ), (1 : ℚ)) ((4 : ℚ), (10 : ℚ)) (by norm_num)]
  · norm_num [DeviceOptimizer.optimize, build_e_bpts, contention_policy, isclose,
      extract_allocs, x_keys, alloc_step, dinsert, pyround_one, extract_n_vms, n_vms_step,
      objective_value, energy_value, segs, seg_term_energy,
      sort_bpts_pair ((0 : ℚ), (1 : ℚ)) ((4 : ℚ), (10 : ℚ)) (by norm_num)]

/- ----------------------------------------------------------------- -/
/- Lemmas for the sweep driver                                       -/
/- ----------------------------------------------------------------- -/

/-- Payload of a successful `Device.adjust` call. -/
def adjust_list (d : Device) (n_iter : Int) : List Device :=
  d :: d.adjustGo ((1 - d.capacity_load) / (((n_iter - 1).toNat : Nat) : ℚ))
    (n_iter - 1).toNat d.capacity_load

lemma adjust_eq_ok (d : Device) (n : Int) (h2 : 2 ≤ n) :
    d.adjust n = Except.ok (adjust_list d n) := by
  show (if n < 2 then _ else _) = _
  rw [if_neg (by omega)]
  rfl

lemma adjust_list_length (d : Device) (n : Int) (h2 : 2 ≤ n) :
    ((adjust_list d n).length : Int) = n := by
  have : (adjust_list d n).length = (n - 1).toNat + 1 := by
    simp [adjust_list, adjustGo_length]
  rw [this]
  omega

lemma adjust_rows_eq (n : Int) (h2 : 2 ≤ n) :
    ∀ devices : List Device,
      adjust_rows n devices = Except.ok (devices.map (fun d => adjust_list d n)) := by
  intro devices
  induction devices with
  | nil => rfl
  | cons d rest ih =>
    show (match d.adjust n, adjust_rows n rest with
      | Except.ok row, Except.ok rows => Except.ok (row :: rows)
      | Except.error e, _ => Except.error e
      | Except.ok _, Except.error e => Except.error e) = _
    rw [adjust_eq_ok d n h2, ih]
    rfl

lemma foldl_min_const (N : Nat) :
    ∀ l : List Nat, (∀ x ∈ l, x = N) → l.foldl min N = N := by
  intro l
  induction l with
  | nil => intro _; rfl
  | cons a t ih =>
    intro h
    rw [List.foldl_cons, h a (by simp), min_self]
    exact ih (fun x hx => h x (List.mem_cons_of_mem a hx))

lemma min?_all_eq (N : Nat) :
    ∀ l : List Nat, l ≠ [] → (∀ x ∈ l, x = N) → l.min? = some N := by
  intro l
  match l with
  | [] => intro h; exact absurd rfl h
  | a :: t =>
    intro _ h
    show some (t.foldl min a) = some N
    rw [h a (by simp)]
    exact congrArg some (foldl_min_const N t (fun x hx => h x (List.mem_cons_of_mem a hx)))

lemma pyzip_length {α : Type} (rows : List (List α)) (N : Nat) (hne : rows ≠ [])
    (hall : ∀ r ∈ rows, r.length = N) : (pyzip rows).length = N := by
  unfold pyzip
  rw [List.length_map, min?_all_eq N (rows.map (fun r => r.length))
    (by simpa using hne)
    (by intro x hx; rw [List.mem_map] at hx; obtain ⟨r, hr, rfl⟩ := hx; exact hall r hr)]
  simp

lemma pyzip_get? {α : Type} (rows : List (List α)) (N : Nat) (hne : rows ≠ [])
    (hall : ∀ r ∈ rows, r.length = N) (k : Nat) :
    (pyzip rows).get? k
      = if k < N then some (rows.filterMap (fun r => r.get? k)) else none := by
  unfold pyzip
  rw [min?_all_eq N (rows.map (fun r => r.length))
    (by simpa using hne)
    (by intro x hx; rw [List.mem_map] at hx; obtain ⟨r, hr, rfl⟩ := hx; exact hall r hr)]
  simp only [Option.getD_some, List.get?_eq_getElem?, List.getElem?_map]
  by_cases hk : k < N
  · rw [if_pos hk, List.getElem?_range hk]
    rfl
  · rw [if_neg hk, List.getElem?_eq_none (by simpa using Nat.not_lt.mp hk)]
    rfl

lemma contention_policy_long_some (corr : Option ℚ) (energy : List (ℚ × ℚ))
    (h2 : 2 ≤ energy.length) : ∃ r, contention_policy corr energy = some r := by
  have h1 : energy ≠ [] := by
    intro h
    rw [h] at h2
    simp at h2
  have hd : energy.dropLast ≠ [] := by
    have hlen : energy.dropLast.length = energy.length - 1 := List.length_dropLast energy
    intro h
    rw [h] at hlen
    simp at hlen
    omega
  obtain ⟨lastB, hlast⟩ := Option.isSome_iff_exists.mp (List.getLast?_isSome.mpr h1)
  obtain ⟨sndB, hsnd⟩ := Option.isSome_iff_exists.mp (List.getLast?_isSome.mpr hd)
  cases corr with
  | none =>
    refine ⟨if isclose lastB.2 sndB.2 (1 / 100) 0 then energy.dropLast else energy, ?_⟩
    simp only [contention_policy, hlast, hsnd]
  | some c =>
    by_cases hc : c = 1
    · exact ⟨energy, by simp [contention_policy, hc]⟩
    · refine ⟨if isclose lastB.2 sndB.2 (1 / 100) 0
          then energy.dropLast ++ [(lastB.1, lastB.2 * c)] else energy, ?_⟩
      simp only [contention_policy, if_neg hc, hlast, hsnd]

lemma build_e_bpts_long_some (corr : Option ℚ) :
    ∀ clusters : List Cluster, (∀ cl ∈ clusters, 2 ≤ cl.energy.length) →
      ∃ e, build_e_bpts corr clusters = some e := by
  intro clusters
  induction clusters with
  | nil => intro _; exact ⟨[], rfl⟩
  | cons c rest ih =>
    intro hcl
    obtain ⟨r, hr⟩ := contention_policy_long_some corr c.energy (hcl c (by simp))
    obtain ⟨e, he⟩ := ih (fun cl hcl' => hcl cl (List.mem_cons_of_mem c hcl'))
    exact ⟨(c.id, r) :: e, by simp [build_e_bpts, hr, he]⟩

lemma optimize_contention_no_err (devices : List Device) (clusters : List Cluster)
    (min_capacity : ℚ) (max_capacity : Option ℚ) (contention_corr : ℚ)
    (oracle : Option ℚ → LpStatus × Assignment)
    (hcl : ∀ cl ∈ clusters, 2 ≤ cl.energy.length) :
    optimize_contention devices clusters min_capacity max_capacity contention_corr oracle
      ≠ SolveOut.err := by
  obtain ⟨e1, h1⟩ := build_e_bpts_long_some none clusters hcl
  obtain ⟨e2, h2⟩ := build_e_bpts_long_some (some contention_corr) clusters hcl
  by_cases hst : (oracle none).1 = LpStatus.optimal
  · simp [optimize_contention, DeviceOptimizer.optimize, h1, hst]
  · by_cases hst2 : (oracle (some contention_corr)).1 = LpStatus.optimal
    · simp [optimize_contention, DeviceOptimizer.optimize, h1, h2, hst, hst2]
    · simp [optimize_contention, DeviceOptimizer.optimize, h1, h2, hst, hst2]

lemma run_scenarios_eq (clusters : List Cluster)
    (oracle : Nat → Option ℚ → LpStatus × Assignment)
    (hcl : ∀ cl ∈ clusters, 2 ≤ cl.energy.length) :
    ∀ (scens : List (List Device)) (k : Nat),
      run_scenarios clusters oracle k scens
        = some ((scens.enumFrom k).filterMap (fun ks =>
            match optimize_contention ks.2 clusters 0 none 2 (oracle ks.1) with
            | SolveOut.sol t => some t
            | _ => none)) := by
  intro scens
  induction scens with
  | nil => intro k; rfl
  | cons ds rest ih =>
    intro k
    cases h : optimize_contention ds clusters 0 none 2 (oracle k) with
    | err => exact absurd h (optimize_contention_no_err ds clusters 0 none 2 (oracle k) hcl)
    | noSol =>
      simp only [run_scenarios, h, List.enumFrom_cons, List.filterMap_cons]
      exact ih (k + 1)
    | sol t =>
      simp only [run_scenarios, h, List.enumFrom_cons, List.filterMap_cons, ih (k + 1)]
      rfl

/-- C9 amended: for every NON-EMPTY device collection, `n_iter ≥ 2` and
clusters whose curves survive the breakpoint policy, the sweep driver
adjusts every device, builds exactly `n_iter` scenarios — scenario `k`
holding the `k`-th adjust-variant of every device, in device order — runs
the two-phase solve independently per scenario and returns exactly the
results of the successful scenarios in scenario order, skipping sentinel
scenarios without aborting; the returned list has length at most
`n_iter`.  (For an EMPTY device collection the claim fails: `zip(*[])`
yields zero scenarios, not `n_iter`; see the counterexample.) -/
theorem C9_sweep (clusters : List Cluster) (devices : List Device) (n_iter : Int)
    (oracle : Nat → Option ℚ → LpStatus × Assignment)
    (hne : devices ≠ []) (h2 : 2 ≤ n_iter)
    (hcl : ∀ cl ∈ clusters, 2 ≤ cl.energy.length) :
    ∃ rows, adjust_rows n_iter devices = Except.ok rows
      ∧ rows.length = devices.length
      ∧ (∀ j : Nat, ∀ d : Device, devices.get? j = some d →
          ∃ row, rows.get? j = some row ∧ d.adjust n_iter = Except.ok row
            ∧ (row.length : Int) = n_iter)
      ∧ ((pyzip rows).length : Int) = n_iter
      ∧ (∀ k : Nat, (k : Int) < n_iter →
          (pyzip rows).get? k = some (rows.filterMap (fun r => r.get? k)))
      ∧ optimize clusters devices n_iter oracle
          = some (scenario_results clusters oracle (pyzip rows))
      ∧ (scenario_results clusters oracle (pyzip rows)).length ≤ (pyzip rows).length := by
  have hNi : (((n_iter - 1).toNat + 1 : Nat) : Int) = n_iter := by omega
  set rows : List (List Device) := devices.map (fun d => adjust_list d n_iter) with hrows
  have hrowsne : rows ≠ [] := by
    rw [hrows]
    intro h
    exact hne (List.map_eq_nil_iff.mp h)
  have hall : ∀ r ∈ rows, r.length = (n_iter - 1).toNat + 1 := by
    intro r hr
    rw [hrows] at hr
    rw [List.mem_map] at hr
    obtain ⟨d, hd, rfl⟩ := hr
    have := adjust_list_length d n_iter h2
    omega
  refine ⟨rows, adjust_rows_eq n_iter h2 devices, by simp [hrows], ?_, ?_, ?_, ?_, ?_⟩
  · intro j d hj
    refine ⟨adjust_list d n_iter, ?_, adjust_eq_ok d n_iter h2, adjust_list_length d n_iter h2⟩
    rw [hrows, List.get?_eq_getElem?, List.getElem?_map, ← List.get?_eq_getElem?, hj]
    rfl
  · rw [pyzip_length rows ((n_iter - 1).toNat + 1) hrowsne hall]
    exact hNi
  · intro k hk
    rw [pyzip_get? rows ((n_iter - 1).toNat + 1) hrowsne hall k, if_pos (by omega)]
  · show (match adjust_rows n_iter devices with
      | Except.error _ => none
      | Except.ok rows => run_scenarios clusters oracle 0 (pyzip rows)) = _
    rw [adjust_rows_eq n_iter h2 devices]
    show run_scenarios clusters oracle 0 (pyzip rows) = _
    rw [run_scenarios_eq clusters oracle hcl (pyzip rows) 0]
    rfl
  · calc (scenario_results clusters oracle (pyzip rows)).length
        ≤ (pyzip rows).enum.length := by
          simp only [scenario_results]
          exact List.length_filterMap_le _ _
      _ = (pyzip rows).length := List.enum_length

/-- C9 counterexample: with an EMPTY device collection and `n_iter = 2`,
`zip(*[])` produces zero scenarios and the sweep returns the empty list,
although the two-phase solve on the (empty) scenario the claim prescribes
for `k = 0` is successful — so the returned list is not the list of the
successful scenarios' results. -/
theorem C9_empty_devices :
    optimize [⟨7, 0, 4, [(0, 1), (4, 10)], 1⟩] ([] : List Device) 2
        (fun _ _ => (LpStatus.optimal,
          ⟨fun _ _ => 0, fun _ => 0, fun _ _ => 1, fun _ _ => 0⟩))
      = some []
    ∧ optimize_contention ([] : List Device) [⟨7, 0, 4, [(0, 1), (4, 10)], 1⟩] 0 none 2
        ((fun (_ : Nat) (_ : Option ℚ) => (LpStatus.optimal,
          (⟨fun _ _ => 0, fun _ => 0, fun _ _ => 1, fun _ _ => 0⟩ : Assignment))) 0)
      = SolveOut.sol ([], [(7, 0)], 1) := by
  constructor
  · rfl
  · norm_num [optimize_contention, DeviceOptimizer.optimize, build_e_bpts, contention_policy,
      isclose, extract_allocs, x_keys, extract_n_vms, n_vms_step, dinsert, pyround_zero,
      objective_value, energy_value, segs, seg_term_energy,
      sort_bpts_pair ((0 : ℚ), (1 : ℚ)) ((4 : ℚ), (10 : ℚ)) (by norm_num)]

/-- Witness for the amended C9: one device, two scenarios, an
all-optimal oracle. -/
theorem C9_sweep_witness :
    ∃ rows, adjust_rows 2 [(⟨1, 1, 1/2, [7]⟩ : Device)] = Except.ok rows
      ∧ rows.length = [(⟨1, 1, 1/2, [7]⟩ : Device)].length
      ∧ (∀ j : Nat, ∀ d : Device, [(⟨1, 1, 1/2, [7]⟩ : Device)].get? j = some d →
          ∃ row, rows.get? j = some row ∧ d.adjust 2 = Except.ok row
            ∧ (row.length : Int) = 2)
      ∧ ((pyzip rows).length : Int) = 2
      ∧ (∀ k : Nat, (k : Int) < 2 →
          (pyzip rows).get? k = some (rows.filterMap (fun r => r.get? k)))
      ∧ optimize [⟨7, 0, 4, [(0, 1), (4, 10)], 1⟩] [(⟨1, 1, 1/2, [7]⟩ : Device)] 2
          (fun _ _ => (LpStatus.optimal,
            ⟨fun _ _ => 1, fun _ => 1, fun _ _ => 1, fun _ _ => 1/4⟩))
          = some (scenario_results [⟨7, 0, 4, [(0, 1), (4, 10)], 1⟩]
              (fun _ _ => (LpStatus.optimal,
                ⟨fun _ _ => 1, fun _ => 1, fun _ _ => 1, fun _ _ => 1/4⟩)) (pyzip rows))
      ∧ (scenario_results [⟨7, 0, 4, [(0, 1), (4, 10)], 1⟩]
          (fun _ _ => (LpStatus.optimal,
            ⟨fun _ _ => 1, fun _ => 1, fun _ _ => 1, fun _ _ => 1/4⟩)) (pyzip rows)).length
        ≤ (pyzip rows).length :=
  C9_sweep [⟨7, 0, 4, [(0, 1), (4, 10)], 1⟩] [(⟨1, 1, 1/2, [7]⟩ : Device)] 2
    (fun _ _ => (LpStatus.optimal, ⟨fun _ _ => 1, fun _ => 1, fun _ _ => 1, fun _ _ => 1/4⟩))
    (by simp) (by norm_num)
    (by intro cl hcl; rw [List.mem_singleton] at hcl; subst hcl; norm_num)
